import Mathlib

/-!
# Verification of the OpenEnglishTutor selection / scoring engine

Shallow embedding of the adaptive question selection, answer evaluation,
score conversion and progress aggregation logic of the OpenEnglishTutor
repository (packages/api/src/services/exam-types/{YDS,IELTS,TOEFL}Service.ts,
packages/shared/src/utils/index.ts, packages/api/tests/setup.ts).

JavaScript numbers are modelled as rationals (`ℚ`); the one reachable
non-finite value (the `NaN` produced by an unguarded `0 / 0`) is modelled
explicitly by `JsNumber`.  JavaScript strings are modelled as `String`, with
`toLowerCase` / `trim` modelled character-wise.
-/

/-- JavaScript `Math.round`: round to the nearest integer, halves toward
positive infinity. -/
def jsRound (q : ℚ) : ℤ := ⌊q + 1/2⌋

/-- JavaScript `String.prototype.toLowerCase`, modelled character-wise. -/
def jsToLower (s : String) : String := ⟨s.data.map Char.toLower⟩

/-- JavaScript `String.prototype.toUpperCase`, modelled character-wise. -/
def jsToUpper (s : String) : String := ⟨s.data.map Char.toUpper⟩

/-- JavaScript `String.prototype.trim`: drop whitespace from both ends. -/
def jsTrim (s : String) : String :=
  ⟨((s.data.dropWhile Char.isWhitespace).reverse.dropWhile Char.isWhitespace).reverse⟩

/-- A JavaScript number as it occurs in the evaluators: either a finite
value or the non-finite result of dividing by zero (the reachable case in
the code is `0 / 0`, i.e. `NaN`). -/
inductive JsNumber
  | num (q : ℚ)
  | nan
deriving DecidableEq, Repr

/-- JavaScript division: division by zero does not raise, it produces a
non-finite number (`NaN` for the reachable `0 / 0` case). -/
def jsDiv (a b : ℚ) : JsNumber := if b = 0 then .nan else .num (a / b)

/-- Multiplication of a JavaScript number by a finite constant
(`NaN * c = NaN`). -/
def jsMul (x : JsNumber) (c : ℚ) : JsNumber :=
  match x with
  | .num q => .num (q * c)
  | .nan => .nan

/-- The three difficulty levels of the `Difficulty` type in
packages/shared/src/types. -/
inductive Difficulty
  | easy
  | medium
  | hard
deriving DecidableEq, Repr

/-- The fields of a `QuestionAttempt` row used by the scoring utilities.
`isCorrect` is optional in the source (`isCorrect?: boolean`);
`questionPoints` models `attempt.question?.points` (an `INTEGER` column). -/
structure QuestionAttempt where
  skillId : String
  isCorrect : Option Bool
  score : ℚ
  questionPoints : Option ℤ
deriving DecidableEq, Repr

/-- The truthiness test `attempt.isCorrect ? 1 : 0` of the source:
`undefined` and `false` both count as not correct. -/
def attemptCorrectFlag (a : QuestionAttempt) : ℚ :=
  if a.isCorrect = some true then 1 else 0

/-- The accuracy expression of `getAdaptiveDifficulty`:
`recentAttempts.reduce((sum, a) => sum + (a.isCorrect ? 1 : 0), 0) / recentAttempts.length`. -/
def recentAccuracy (recentAttempts : List QuestionAttempt) : ℚ :=
  (recentAttempts.foldl (fun sum a => sum + attemptCorrectFlag a) 0) / recentAttempts.length

/-- `getAdaptiveDifficulty` (packages/shared/src/utils/index.ts, duplicated
verbatim in YDSService / IELTSService / TOEFLService): keep the current
difficulty when fewer than 3 recent attempts exist, otherwise step up one
level when accuracy > 0.8, step down one level when accuracy < 0.4, and keep
it otherwise. -/
def getAdaptiveDifficulty (recentAttempts : List QuestionAttempt)
    (currentDifficulty : Difficulty) : Difficulty :=
  if recentAttempts.length < 3 then currentDifficulty
  else if recentAccuracy recentAttempts > 8/10 then
    (if currentDifficulty = .easy then .medium
     else if currentDifficulty = .medium then .hard
     else .hard)
  else if recentAccuracy recentAttempts < 4/10 then
    (if currentDifficulty = .hard then .medium
     else if currentDifficulty = .medium then .easy
     else .easy)
  else currentDifficulty

/-- Spec-side definition (from the spec's words): one difficulty step up,
easy→medium→hard, capped at hard. -/
def specStepUp : Difficulty → Difficulty
  | .easy => .medium
  | .medium => .hard
  | .hard => .hard

/-- Spec-side definition (from the spec's words): one difficulty step down,
hard→medium→easy, capped at easy. -/
def specStepDown : Difficulty → Difficulty
  | .hard => .medium
  | .medium => .easy
  | .easy => .easy

/-- Numeric index of a difficulty level, to measure step distance. -/
def difficultyIndex : Difficulty → ℤ
  | .easy => 0
  | .medium => 1
  | .hard => 2

/-- C1: the adaptive-difficulty function keeps the current difficulty when
fewer than 3 recent attempts exist or when the accuracy over the recent
attempts lies in [0.4, 0.8]; it steps difficulty up exactly one level
(capped at hard) when accuracy > 0.8 and down exactly one level (capped at
easy) when accuracy < 0.4; consequently the result never differs from the
input difficulty by more than one step. -/
theorem getAdaptiveDifficulty_ratchet (l : List QuestionAttempt) (d : Difficulty) :
    (l.length < 3 → getAdaptiveDifficulty l d = d) ∧
    (4/10 ≤ recentAccuracy l → recentAccuracy l ≤ 8/10 →
      getAdaptiveDifficulty l d = d) ∧
    (3 ≤ l.length → 8/10 < recentAccuracy l →
      getAdaptiveDifficulty l d = specStepUp d) ∧
    (3 ≤ l.length → recentAccuracy l < 4/10 →
      getAdaptiveDifficulty l d = specStepDown d) ∧
    (difficultyIndex (getAdaptiveDifficulty l d) - difficultyIndex d).natAbs ≤ 1 := by
  unfold getAdaptiveDifficulty
  refine ⟨?_, ?_, ?_, ?_, ?_⟩
  · intro h; simp [h]
  · intro h1 h2
    have hgt : ¬ (recentAccuracy l > 8/10) := not_lt.mpr h2
    have hlt : ¬ (recentAccuracy l < 4/10) := not_lt.mpr h1
    split_ifs <;> rfl
  · intro hlen hacc
    have h3 : ¬ (l.length < 3) := by omega
    cases d <;> simp [h3, hacc, specStepUp]
  · intro hlen hacc
    have h3 : ¬ (l.length < 3) := by omega
    have hgt : ¬ (recentAccuracy l > 8/10) := by
      intro h; exact absurd hacc (not_lt.mpr (le_of_lt (lt_trans (by norm_num) h)))
    cases d <;> simp [h3, hgt, hacc, specStepDown]
  · cases d <;> split_ifs <;> first | decide | simp_all

/-- C1 witness: three fully correct recent attempts at easy difficulty step
the difficulty up to medium. -/
theorem getAdaptiveDifficulty_ratchet_witness :
    getAdaptiveDifficulty
      [⟨"grammar", some true, 1, some 1⟩, ⟨"grammar", some true, 1, some 1⟩,
       ⟨"grammar", some true, 1, some 1⟩] .easy = .medium := by
  have h := getAdaptiveDifficulty_ratchet
    [⟨"grammar", some true, 1, some 1⟩, ⟨"grammar", some true, 1, some 1⟩,
     ⟨"grammar", some true, 1, some 1⟩] .easy
  exact h.2.2.1 (by decide) (by norm_num [recentAccuracy, attemptCorrectFlag])

/-- JavaScript `question.points || 1` on the integer `points` column:
`undefined` and the falsy value `0` are both replaced by `1`. -/
def jsPointsOrOne : Option ℤ → ℤ
  | some p => if p = 0 then 1 else p
  | none => 1

/-- JavaScript template interpolation of a possibly-undefined string field,
as in the feedback template of `YDSService.evaluateObjectiveAnswer`. -/
def jsInterpolate : Option String → String
  | some s => s
  | none => "undefined"

/-- The fields of a question row used by `YDSService.evaluateObjectiveAnswer`.
`correctAnswer` is optional (`correctAnswer?: string`); `points` is the
`INTEGER` column of the schema; `skillCode` models `question.skill?.skillCode`. -/
structure YDSQuestion where
  correctAnswer : Option String
  points : Option ℤ
  skillCode : Option String
  questionType : String
deriving DecidableEq, Repr

/-- The object returned by `YDSService.evaluateObjectiveAnswer`
(`criteriaScores` is the literal `null` in the source). -/
structure YDSEvaluation where
  isCorrect : Bool
  score : ℚ
  rawScore : ℚ
  feedback : String
  suggestions : String
  criteriaScores : Option (List (String × ℚ))
deriving DecidableEq, Repr

/-- `YDSService.generateYDSSuggestions`. -/
def generateYDSSuggestions (skillCode : Option String) (_questionType : String) : String :=
  if skillCode = some "grammar" then
    "Gramer kurallarını tekrar gözden geçirin. Cümle yapılarına ve zaman uyumuna dikkat edin."
  else if skillCode = some "vocabulary" then
    "Kelime dağarcığınızı geliştirin. Kelimelerin farklı anlamlarını ve kullanım alanlarını öğrenin."
  else if skillCode = some "reading" then
    "Metni daha dikkatli okuyun. Ana fikri ve detayları ayırt etmeye çalışın."
  else if skillCode = some "listening" then
    "Dinleme becerilerinizi geliştirin. Anahtar kelimelere odaklanın ve not alın."
  else
    "YDS sınavına yönelik daha fazla pratik yapın."

/-- `YDSService.evaluateObjectiveAnswer`: case-insensitive, trimmed exact
match of the submitted answer against `question.correctAnswer?`; the
comparison with an `undefined` correct answer is `false` (JavaScript
`string === undefined`), so a missing correct answer silently scores zero. -/
def evaluateObjectiveAnswer (question : YDSQuestion) (answer : String) : YDSEvaluation :=
  let isCorrect :=
    match question.correctAnswer with
    | some correct => jsTrim (jsToLower answer) == jsTrim (jsToLower correct)
    | none => false
  let score : ℚ := if isCorrect then (jsPointsOrOne question.points : ℚ) else 0
  { isCorrect := isCorrect
    score := score
    rawScore := score
    feedback :=
      if isCorrect then "Doğru! Tebrikler."
      else "Yanlış. Doğru cevap: " ++ jsInterpolate question.correctAnswer
    suggestions :=
      if isCorrect then "Böyle devam edin!"
      else generateYDSSuggestions question.skillCode question.questionType
    criteriaScores := none }

/-- C3 counterexample: a multiple-choice question whose stored point value is
`0` is scored `1` on a match (`question.points || 1` treats `0` as missing),
not its point value `0` as the claim states. -/
theorem evaluateObjectiveAnswer_zero_points_counterexample :
    (evaluateObjectiveAnswer ⟨some "b", some 0, some "grammar", "MULTIPLE_CHOICE"⟩ "B ").isCorrect
      = true ∧
    (evaluateObjectiveAnswer ⟨some "b", some 0, some "grammar", "MULTIPLE_CHOICE"⟩ "B ").score
      ≠ 0 := by
  constructor
  · decide
  · decide

/-- C3 (amended): for an objective question with a stored correct answer and
a nonzero point value p, evaluation returns isCorrect exactly on the
case-insensitive whitespace-trimmed match; the score (and raw score) is p on
match and 0 otherwise, and on a mismatch the feedback contains the stored
correct answer. -/
theorem evaluateObjectiveAnswer_spec (q : YDSQuestion) (c : String) (p : ℤ)
    (ans : String) (hc : q.correctAnswer = some c) (hp : q.points = some p)
    (hp0 : p ≠ 0) :
    ((evaluateObjectiveAnswer q ans).isCorrect = true ↔
      jsTrim (jsToLower ans) = jsTrim (jsToLower c)) ∧
    (jsTrim (jsToLower ans) = jsTrim (jsToLower c) →
      (evaluateObjectiveAnswer q ans).score = p ∧
      (evaluateObjectiveAnswer q ans).rawScore = p) ∧
    (jsTrim (jsToLower ans) ≠ jsTrim (jsToLower c) →
      (evaluateObjectiveAnswer q ans).isCorrect = false ∧
      (evaluateObjectiveAnswer q ans).score = 0 ∧
      (evaluateObjectiveAnswer q ans).rawScore = 0 ∧
      ∃ pre post, (evaluateObjectiveAnswer q ans).feedback = pre ++ c ++ post) := by
  simp only [evaluateObjectiveAnswer, hc, hp, jsPointsOrOne, jsInterpolate]
  refine ⟨?_, ?_, ?_⟩
  · simp [beq_iff_eq]
  · intro h
    simp [h, hp0]
  · intro h
    have hb : (jsTrim (jsToLower ans) == jsTrim (jsToLower c)) = false := by
      simpa [beq_iff_eq] using h
    refine ⟨by simp [hb], by simp [hb], by simp [hb], "Yanlış. Doğru cevap: ", "", by simp [hb]⟩

/-- C3 witness: the spec's example, answer "A" against correct answer "B"
with points = 1, gives isCorrect false, score 0, raw score 0, and feedback
containing "B". -/
theorem evaluateObjectiveAnswer_spec_witness :
    (evaluateObjectiveAnswer ⟨some "B", some 1, some "grammar", "MULTIPLE_CHOICE"⟩ "A").isCorrect
      = false ∧
    (evaluateObjectiveAnswer ⟨some "B", some 1, some "grammar", "MULTIPLE_CHOICE"⟩ "A").score
      = 0 ∧
    (evaluateObjectiveAnswer ⟨some "B", some 1, some "grammar", "MULTIPLE_CHOICE"⟩ "A").rawScore
      = 0 ∧
    ∃ pre post,
      (evaluateObjectiveAnswer ⟨some "B", some 1, some "grammar", "MULTIPLE_CHOICE"⟩ "A").feedback
        = pre ++ "B" ++ post := by
  have h := evaluateObjectiveAnswer_spec
    ⟨some "B", some 1, some "grammar", "MULTIPLE_CHOICE"⟩ "B" 1 "A" rfl rfl (by decide)
  exact h.2.2 (by decide)

/-- C4: evaluating an objective question whose stored correct answer is
missing does not raise a configuration error: the evaluator silently returns
isCorrect false with score 0 and interpolates "undefined" into the feedback. -/
theorem evaluateObjectiveAnswer_missing_answer_silent_zero :
    evaluateObjectiveAnswer ⟨none, some 1, some "grammar", "MULTIPLE_CHOICE"⟩ "A" =
      { isCorrect := false
        score := 0
        rawScore := 0
        feedback := "Yanlış. Doğru cevap: undefined"
        suggestions := "Gramer kurallarını tekrar gözden geçirin. Cümle yapılarına ve zaman uyumuna dikkat edin."
        criteriaScores := none } := by
  decide

/-- Unfolding a sum accumulator: `reduce((sum, a) => sum + f(a), init)`. -/
theorem foldl_add_map {α : Type} (f : α → ℚ) (l : List α) (init : ℚ) :
    l.foldl (fun s a => s + f a) init = init + (l.map f).sum := by
  induction l generalizing init with
  | nil => simp
  | cons a t ih => simp only [List.foldl_cons, List.map_cons, List.sum_cons, ih]; ring

/-- JavaScript `x || 0` on a number: the falsy value `0` maps to `0`, any
other number to itself (so it is the identity on rationals). -/
def jsOrZero (q : ℚ) : ℚ := if q = 0 then 0 else q

theorem jsOrZero_eq (q : ℚ) : jsOrZero q = q := by
  unfold jsOrZero; split_ifs with h <;> simp [h]

/-- The `user_exam_progress` row fields written by `updateUserProgress`
(packages/api/tests/setup.ts). -/
structure UserExamProgress where
  totalQuestions : ℕ
  correctAnswers : ℕ
  totalPoints : ℕ
  earnedPoints : ℚ
  averageScore : ℚ
  bestScore : ℚ
deriving DecidableEq, Repr

/-- The part of an evaluation consumed by `updateUserProgress`
(`evaluation.isCorrect` may be `undefined` for AI-delegated kinds). -/
structure EvalResult where
  isCorrect : Option Bool
  score : ℚ
deriving DecidableEq, Repr

/-- `updateUserProgress` (packages/api/tests/setup.ts): create the progress
row on the first attempt, otherwise increment the counters, recompute the
average as earned/total and the best as `Math.max(progress.bestScore || 0,
evaluation.score)`. -/
def updateUserProgress (progress : Option UserExamProgress)
    (evaluation : EvalResult) : UserExamProgress :=
  match progress with
  | none =>
    { totalQuestions := 1
      correctAnswers := if evaluation.isCorrect = some true then 1 else 0
      totalPoints := 1
      earnedPoints := evaluation.score
      averageScore := evaluation.score
      bestScore := evaluation.score }
  | some p =>
    let newTotalQuestions := p.totalQuestions + 1
    let newCorrectAnswers :=
      p.correctAnswers + (if evaluation.isCorrect = some true then 1 else 0)
    let newTotalPoints := p.totalPoints + 1
    let newEarnedPoints := p.earnedPoints + evaluation.score
    let newAverageScore := newEarnedPoints / (newTotalPoints : ℚ)
    let newBestScore := max (jsOrZero p.bestScore) evaluation.score
    { totalQuestions := newTotalQuestions
      correctAnswers := newCorrectAnswers
      totalPoints := newTotalPoints
      earnedPoints := newEarnedPoints
      averageScore := newAverageScore
      bestScore := newBestScore }

/-- Folding a sequence of evaluations into the progress row for one
(user, exam type, skill), starting from no row. -/
def foldProgress (evals : List EvalResult) : Option UserExamProgress :=
  evals.foldl (fun p e => some (updateUserProgress p e)) none

/-- Invariant of the progress fold relative to an existing row. -/
theorem foldProgress_go (rest : List EvalResult) (P : UserExamProgress) :
    ∃ Q, rest.foldl (fun p e => some (updateUserProgress p e)) (some P) = some Q ∧
      Q.totalQuestions = P.totalQuestions + rest.length ∧
      Q.totalPoints = P.totalPoints + rest.length ∧
      Q.correctAnswers =
        P.correctAnswers + (rest.filter (fun e => e.isCorrect = some true)).length ∧
      Q.earnedPoints = P.earnedPoints + (rest.map (fun e => e.score)).sum ∧
      (rest = [] → Q = P) ∧
      (rest ≠ [] → Q.averageScore = Q.earnedPoints / (Q.totalPoints : ℚ)) ∧
      (Q.bestScore = P.bestScore ∨ Q.bestScore ∈ rest.map (fun e => e.score)) ∧
      P.bestScore ≤ Q.bestScore ∧
      ∀ s ∈ rest.map (fun e => e.score), s ≤ Q.bestScore := by
  induction rest generalizing P with
  | nil => exact ⟨P, rfl, by simp, by simp, by simp, by simp, fun _ => rfl, by simp, Or.inl rfl,
      le_refl _, by simp⟩
  | cons e t ih =>
    obtain ⟨Q, hfold, hq, hp, hc, he, hnil, havg, hbor, hble, hbub⟩ :=
      ih (updateUserProgress (some P) e)
    have hupd : updateUserProgress (some P) e =
        { totalQuestions := P.totalQuestions + 1
          correctAnswers := P.correctAnswers + (if e.isCorrect = some true then 1 else 0)
          totalPoints := P.totalPoints + 1
          earnedPoints := P.earnedPoints + e.score
          averageScore := (P.earnedPoints + e.score) / ((P.totalPoints + 1 : ℕ) : ℚ)
          bestScore := max P.bestScore e.score } := by
      simp [updateUserProgress, jsOrZero_eq]
    refine ⟨Q, hfold, ?_, ?_, ?_, ?_, ?_, ?_, ?_, ?_, ?_⟩
    · simp only [hq, hupd, List.length_cons]; omega
    · simp only [hp, hupd, List.length_cons]; omega
    · simp only [hc, hupd, List.filter_cons]
      by_cases hcor : e.isCorrect = some true <;> simp [hcor] <;> omega
    · simp only [he, hupd, List.map_cons, List.sum_cons]; ring
    · intro h; exact absurd h (List.cons_ne_nil e t)
    · intro _
      by_cases hT : t = []
      · subst hT
        have hQ : Q = updateUserProgress (some P) e := hnil rfl
        rw [hQ, hupd]
      · exact havg hT
    · rcases hbor with h | h
      · rw [h, hupd]
        simp only [List.map_cons]
        rcases max_choice P.bestScore e.score with hm | hm
        · exact Or.inl hm
        · exact Or.inr (by rw [hm]; exact List.mem_cons_self _ _)
      · exact Or.inr (List.mem_cons_of_mem _ h)
    · refine le_trans ?_ hble
      rw [hupd]; exact le_max_left _ _
    · intro s hs
      rcases List.mem_cons.mp hs with h | h
      · subst h
        refine le_trans ?_ hble
        rw [hupd]; exact le_max_right _ _
      · exact hbub s h

/-- C2: folding N ≥ 1 evaluations into Progress gives totals = N,
correct count = number of correct evaluations, earned points = sum of the
scores, average = earned/total, and best = max of the scores; the first
attempt creates the row with totals 1, correct flag, and average = best =
the first score. -/
theorem foldProgress_correct (evals : List EvalResult) (h : evals ≠ []) :
    ∃ P, foldProgress evals = some P ∧
      P.totalQuestions = evals.length ∧
      P.totalPoints = evals.length ∧
      P.correctAnswers = (evals.filter (fun e => e.isCorrect = some true)).length ∧
      P.earnedPoints = (evals.map (fun e => e.score)).sum ∧
      P.averageScore = P.earnedPoints / (P.totalPoints : ℚ) ∧
      P.bestScore ∈ evals.map (fun e => e.score) ∧
      (∀ s ∈ evals.map (fun e => e.score), s ≤ P.bestScore) ∧
      ∀ e, updateUserProgress none e =
        { totalQuestions := 1
          correctAnswers := if e.isCorrect = some true then 1 else 0
          totalPoints := 1
          earnedPoints := e.score
          averageScore := e.score
          bestScore := e.score } := by
  match evals, h with
  | e :: t, _ =>
    have hP0 : updateUserProgress none e =
        { totalQuestions := 1
          correctAnswers := if e.isCorrect = some true then 1 else 0
          totalPoints := 1
          earnedPoints := e.score
          averageScore := e.score
          bestScore := e.score } := rfl
    obtain ⟨Q, hfold, hq, hp, hc, he, hnil, havg, hbor, hble, hbub⟩ :=
      foldProgress_go t (updateUserProgress none e)
    refine ⟨Q, hfold, ?_, ?_, ?_, ?_, ?_, ?_, ?_, fun _ => rfl⟩
    · rw [hq, hP0]; simp only [List.length_cons]; omega
    · rw [hp, hP0]; simp only [List.length_cons]; omega
    · rw [hc, hP0, List.filter_cons]
      by_cases hcor : e.isCorrect = some true <;> simp [hcor] <;> omega
    · rw [he, hP0, List.map_cons, List.sum_cons]
    · by_cases hT : t = []
      · subst hT
        have hQ : Q = updateUserProgress none e := hnil rfl
        rw [hQ, hP0]
        simp
      · exact havg hT
    · rcases hbor with hb | hb
      · rw [hb, hP0, List.map_cons]; exact List.mem_cons_self _ _
      · exact List.mem_cons_of_mem _ hb
    · intro s hs
      rcases List.mem_cons.mp hs with hsh | hsh
      · subst hsh
        refine le_trans ?_ hble
        rw [hP0]
      · exact hbub s hsh

/-- C2 witness: folding the two evaluations with scores 7 and 3 gives
totals 2, one correct answer, earned 10, average 5, best 7. -/
theorem foldProgress_correct_witness :
    ∃ P, foldProgress [⟨some true, 7⟩, ⟨some false, 3⟩] = some P ∧
      P.totalQuestions = 2 ∧ P.averageScore = P.earnedPoints / (P.totalPoints : ℚ) ∧
      P.bestScore ∈ [(7 : ℚ), 3] := by
  obtain ⟨P, h1, h2, _, _, _, h6, h7, _⟩ :=
    foldProgress_correct [⟨some true, 7⟩, ⟨some false, 3⟩] (by decide)
  exact ⟨P, h1, h2, h6, by simpa using h7⟩

theorem jsRound_nonneg {q : ℚ} (h : 0 ≤ q) : 0 ≤ jsRound q := by
  unfold jsRound
  exact Int.le_floor.mpr (by push_cast; linarith)

theorem jsRound_le {q : ℚ} {n : ℤ} (h : q ≤ (n : ℚ)) : jsRound q ≤ n := by
  unfold jsRound
  have hlt : ⌊q + 1/2⌋ < n + 1 :=
    Int.floor_lt.mpr (by push_cast; linarith)
  omega

/-- A sum of integer-valued rationals is integer-valued. -/
theorem list_sum_intValued (l : List ℚ) (h : ∀ x ∈ l, ∃ k : ℤ, x = (k : ℚ)) :
    ∃ k : ℤ, l.sum = (k : ℚ) := by
  induction l with
  | nil => exact ⟨0, by simp⟩
  | cons a t ih =>
    obtain ⟨ka, hka⟩ := h a (List.mem_cons_self a t)
    obtain ⟨kt, hkt⟩ := ih (fun x hx => h x (List.mem_cons_of_mem a hx))
    exact ⟨ka + kt, by rw [List.sum_cons, hka, hkt]; push_cast; ring⟩

/-- Unfolding the two-accumulator fold of `calculateWeightedScore`. -/
theorem foldl_pair_add_map {α : Type} (f g : α → ℚ) (l : List α) (init : ℚ × ℚ) :
    l.foldl (fun acc p => (acc.1 + f p, acc.2 + g p)) init =
      (init.1 + (l.map f).sum, init.2 + (l.map g).sum) := by
  induction l generalizing init with
  | nil => simp
  | cons a t ih =>
    simp only [List.foldl_cons, List.map_cons, List.sum_cons, ih]
    rw [Prod.mk.injEq]
    constructor <;> ring

/-- The branch cascade of `IELTSService.convertReadingScoreToBand` on the
percentage value. -/
def ieltsBandTable (percentage : ℚ) : ℚ :=
  if percentage ≥ 90 then 9
  else if percentage ≥ 80 then 8
  else if percentage ≥ 70 then 7
  else if percentage ≥ 60 then 6
  else if percentage ≥ 50 then 5
  else if percentage ≥ 40 then 4
  else 3

/-- `IELTSService.convertReadingScoreToBand` (also used for listening): a
discrete step table from the percentage of correct sub-answers to an IELTS
band.  (With `totalQuestions = 0` the JavaScript percentage is `NaN`, every
comparison is false and the floor value 3.0 is returned; the `ℚ` convention
`x / 0 = 0` takes the same branch.) -/
def convertReadingScoreToBand (rawScore totalQuestions : ℕ) : ℚ :=
  ieltsBandTable (((rawScore : ℚ) / (totalQuestions : ℚ)) * 100)

/-- The branch cascade of `TOEFLService.convertReadingScoreToTOEFL` on the
percentage value. -/
def toeflScoreTable (percentage : ℚ) : ℚ :=
  if percentage ≥ 95 then 30
  else if percentage ≥ 90 then 28
  else if percentage ≥ 85 then 26
  else if percentage ≥ 80 then 24
  else if percentage ≥ 75 then 22
  else if percentage ≥ 70 then 20
  else if percentage ≥ 65 then 18
  else if percentage ≥ 60 then 16
  else if percentage ≥ 55 then 14
  else if percentage ≥ 50 then 12
  else if percentage ≥ 45 then 10
  else if percentage ≥ 40 then 8
  else if percentage ≥ 35 then 6
  else if percentage ≥ 30 then 4
  else if percentage ≥ 25 then 2
  else 0

/-- `TOEFLService.convertReadingScoreToTOEFL` (also used for listening). -/
def convertReadingScoreToTOEFL (rawScore totalQuestions : ℕ) : ℚ :=
  toeflScoreTable (((rawScore : ℚ) / (totalQuestions : ℚ)) * 100)

/-- Both branches of a conditional within bounds keep the conditional
within bounds. -/
theorem ite_within {c : Prop} [Decidable c] {a b lo hi : ℚ}
    (ha : lo ≤ a ∧ a ≤ hi) (hb : lo ≤ b ∧ b ≤ hi) :
    lo ≤ (if c then a else b) ∧ (if c then a else b) ≤ hi := by
  by_cases h : c <;> simp only [h, if_true, if_false, ite_true, ite_false] <;> tauto

/-- Both branches of a conditional integer-valued keep the conditional
integer-valued. -/
theorem ite_intValued {c : Prop} [Decidable c] {a b : ℚ}
    (ha : ∃ k : ℤ, a = (k : ℚ)) (hb : ∃ k : ℤ, b = (k : ℚ)) :
    ∃ k : ℤ, (if c then a else b) = (k : ℚ) := by
  by_cases h : c <;> simp only [h, if_true, if_false, ite_true, ite_false] <;> tauto

/-- The IELTS band table only produces values in [0, 9]. -/
theorem ieltsBandTable_bounds (p : ℚ) :
    0 ≤ ieltsBandTable p ∧ ieltsBandTable p ≤ 9 := by
  unfold ieltsBandTable
  exact ite_within (by norm_num) (ite_within (by norm_num) (ite_within (by norm_num)
    (ite_within (by norm_num) (ite_within (by norm_num) (ite_within (by norm_num)
    (by norm_num))))))

/-- The TOEFL step table only produces values in [0, 30]. -/
theorem toeflScoreTable_bounds (p : ℚ) :
    0 ≤ toeflScoreTable p ∧ toeflScoreTable p ≤ 30 := by
  unfold toeflScoreTable
  exact ite_within (by norm_num) (ite_within (by norm_num) (ite_within (by norm_num)
    (ite_within (by norm_num) (ite_within (by norm_num) (ite_within (by norm_num)
    (ite_within (by norm_num) (ite_within (by norm_num) (ite_within (by norm_num)
    (ite_within (by norm_num) (ite_within (by norm_num) (ite_within (by norm_num)
    (ite_within (by norm_num) (ite_within (by norm_num) (ite_within (by norm_num)
    (by norm_num)))))))))))))))

/-- `calculateIELTSBandScore` (IELTSService local copy, with the empty
guard): round the mean attempt score to the nearest 0.5. -/
def calculateIELTSBandScore (attempts : List QuestionAttempt) : ℚ :=
  if attempts.length = 0 then 0
  else
    let totalScore := attempts.foldl (fun sum a => sum + a.score) 0
    let averageScore := totalScore / (attempts.length : ℚ)
    (jsRound (averageScore * 2) : ℚ) / 2

/-- The final band computation of `IELTSService.evaluateWritingAnswer`
(lines 483-484): the four criterion scores produced by the (mocked) scoring
oracle are taken as inputs; their unweighted mean is rounded to the nearest
0.5 (half up).  `evaluateSpeakingAnswer` applies the same formula to its
four criteria. -/
def ieltsWritingFinalBand
    (taskAchievement coherenceCohesion lexicalResource grammaticalRange : ℚ) : ℚ :=
  let overallBandScore :=
    (taskAchievement + coherenceCohesion + lexicalResource + grammaticalRange) / 4
  (jsRound (overallBandScore * 2) : ℚ) / 2

/-- The final score computation of `TOEFLService.evaluateWritingAnswer`
(lines 596-597): the mean of the three criterion scores rounded to the
nearest integer (half up). -/
def toeflWritingFinalScore (development organization languageUse : ℚ) : ℚ :=
  (jsRound ((development + organization + languageUse) / 3) : ℚ)

/-- The per-skill score of `calculateTOEFLScore`:
`Math.min(30, Math.round(sum(score)/length * 30))`. -/
def toeflSkillScore (skillAttempts : List QuestionAttempt) : ℚ :=
  min 30 ((jsRound ((skillAttempts.foldl (fun sum a => sum + a.score) 0) /
    (skillAttempts.length : ℚ) * 30)) : ℚ)

/-- The distinct skill keys of the `skillGroups` record built by
`calculateTOEFLScore`.  The JavaScript record iterates keys in insertion
order; the key order does not affect the sum below, so `dedup` is used. -/
def toeflSkillIds (attempts : List QuestionAttempt) : List String :=
  (attempts.map (fun a => a.skillId)).dedup

/-- `calculateTOEFLScore` (packages/shared/src/utils and TOEFLService local
copy): group attempts by skill, score each skill out of 30, sum, cap at 120. -/
def calculateTOEFLScore (attempts : List QuestionAttempt) : ℚ :=
  if attempts.length = 0 then 0
  else
    let totalScore := ((toeflSkillIds attempts).map (fun s =>
      toeflSkillScore (attempts.filter (fun a => a.skillId == s)))).sum
    min 120 totalScore

/-- `calculateYDSScore` (YDSService local copy, with the empty guard):
`Math.round(earnedPoints / totalPoints * 100)` where each attempt
contributes `attempt.question?.points || 1` possible points. -/
def calculateYDSScore (attempts : List QuestionAttempt) : ℚ :=
  if attempts.length = 0 then 0
  else
    let totalPoints := attempts.foldl
      (fun sum a => sum + ((jsPointsOrOne a.questionPoints : ℤ) : ℚ)) 0
    let earnedPoints := attempts.foldl (fun sum a => sum + a.score) 0
    (jsRound (earnedPoints / totalPoints * 100) : ℚ)

/-- `YDSService.getSkillWeights`, with the `weights[skill] || 0` lookup
default of `calculateWeightedScore` folded in. -/
def getSkillWeights (skill : String) : ℚ :=
  if skill = "reading" then 40/100
  else if skill = "listening" then 20/100
  else if skill = "grammar" then 25/100
  else if skill = "vocabulary" then 15/100
  else 0

/-- `YDSService.calculateWeightedScore`: fold over the entries of the
`skillScores` object (modelled as an association list of skill code and
average score), accumulating the weighted sum and the total weight, then
divide and round, guarding `totalWeight > 0`. -/
def calculateWeightedScore (skillScores : List (String × ℚ)) : ℚ :=
  let acc := skillScores.foldl
    (fun (acc : ℚ × ℚ) p => (acc.1 + p.2 * getSkillWeights p.1, acc.2 + getSkillWeights p.1))
    (0, 0)
  if acc.2 > 0 then (jsRound (acc.1 / acc.2) : ℚ) else 0

theorem getSkillWeights_nonneg (s : String) : 0 ≤ getSkillWeights s := by
  unfold getSkillWeights
  split_ifs <;> norm_num

/-- The per-skill TOEFL score is within [0, 30] when attempt scores are
nonnegative. -/
theorem toeflSkillScore_bounds (l : List QuestionAttempt)
    (hs : ∀ a ∈ l, 0 ≤ a.score) :
    0 ≤ toeflSkillScore l ∧ toeflSkillScore l ≤ 30 := by
  unfold toeflSkillScore
  constructor
  · have hsum : 0 ≤ (l.map (fun a => a.score)).sum :=
      List.sum_nonneg (by intro x hx; obtain ⟨a, ha, rfl⟩ := List.mem_map.mp hx; exact hs a ha)
    have h0 : (0:ℚ) ≤ l.foldl (fun sum a => sum + a.score) 0 /
        (l.length : ℚ) * 30 := by
      rw [foldl_add_map]
      have : (0:ℚ) ≤ (l.length : ℚ) := by positivity
      positivity
    have := jsRound_nonneg h0
    simp only [le_min_iff]
    constructor
    · norm_num
    · exact_mod_cast this
  · exact min_le_left _ _

/-- C6: every score-to-scale conversion stays inside the exam's declared
range: the IELTS band table yields values in [0, 9], the TOEFL per-skill
table values in [0, 30], the TOEFL overall score (for nonnegative attempt
scores) lies in [0, 120], and the YDS weighted composite (for skill
averages in [0, 100]) lies in [0, 100]. -/
theorem scoreScale_bounds :
    (∀ raw total : ℕ,
      0 ≤ convertReadingScoreToBand raw total ∧
      convertReadingScoreToBand raw total ≤ 9) ∧
    (∀ raw total : ℕ,
      0 ≤ convertReadingScoreToTOEFL raw total ∧
      convertReadingScoreToTOEFL raw total ≤ 30) ∧
    (∀ attempts : List QuestionAttempt, (∀ a ∈ attempts, 0 ≤ a.score) →
      0 ≤ calculateTOEFLScore attempts ∧ calculateTOEFLScore attempts ≤ 120) ∧
    (∀ skillScores : List (String × ℚ),
      (∀ p ∈ skillScores, 0 ≤ p.2 ∧ p.2 ≤ 100) →
      0 ≤ calculateWeightedScore skillScores ∧
      calculateWeightedScore skillScores ≤ 100) := by
  refine ⟨?_, ?_, ?_, ?_⟩
  · intro raw total
    exact ieltsBandTable_bounds _
  · intro raw total
    exact toeflScoreTable_bounds _
  · intro attempts hs
    unfold calculateTOEFLScore
    split_ifs with h
    · norm_num
    · have hsum : 0 ≤ ((toeflSkillIds attempts).map (fun s =>
          toeflSkillScore (attempts.filter (fun a => a.skillId == s)))).sum := by
        refine List.sum_nonneg ?_
        intro x hx
        obtain ⟨s, _, rfl⟩ := List.mem_map.mp hx
        exact (toeflSkillScore_bounds _ (fun a ha =>
          hs a (List.mem_of_mem_filter ha))).1
      exact ⟨le_min (by norm_num) hsum, min_le_left _ _⟩
  · intro skillScores hp
    unfold calculateWeightedScore
    rw [foldl_pair_add_map]
    simp only [zero_add]
    set S1 := (skillScores.map (fun p => p.2 * getSkillWeights p.1)).sum with hS1
    set S2 := (skillScores.map (fun p => getSkillWeights p.1)).sum with hS2
    have hS1nonneg : 0 ≤ S1 := by
      refine List.sum_nonneg ?_
      intro x hx
      obtain ⟨p, hpm, rfl⟩ := List.mem_map.mp hx
      exact mul_nonneg (hp p hpm).1 (getSkillWeights_nonneg _)
    have hS1le : S1 ≤ 100 * S2 := by
      rw [hS1, hS2, ← List.sum_map_mul_left]
      refine List.sum_le_sum ?_
      intro p hpm
      exact mul_le_mul_of_nonneg_right (hp p hpm).2 (getSkillWeights_nonneg _)
    split_ifs with hpos
    · have hq0 : 0 ≤ S1 / S2 := div_nonneg hS1nonneg (le_of_lt hpos)
      have hq100 : S1 / S2 ≤ 100 := by
        rw [div_le_iff₀ hpos]
        linarith
      have h1 := jsRound_nonneg hq0
      have h2 := jsRound_le (n := 100) (by exact_mod_cast hq100)
      constructor
      · exact_mod_cast h1
      · exact_mod_cast h2
    · norm_num

/-- C6 witness: a single TOEFL attempt with score 1/2 and a YDS skill-score
map within range keep both composite scores inside their scales. -/
theorem scoreScale_bounds_witness :
    (0 ≤ calculateTOEFLScore [⟨"reading", some true, 1, some 1⟩] ∧
      calculateTOEFLScore [⟨"reading", some true, 1, some 1⟩] ≤ 120) ∧
    (0 ≤ calculateWeightedScore [("reading", 80), ("listening", 60)] ∧
      calculateWeightedScore [("reading", 80), ("listening", 60)] ≤ 100) :=
  ⟨scoreScale_bounds.2.2.1 [⟨"reading", some true, 1, some 1⟩]
      (by intro a ha; simp only [List.mem_singleton] at ha; subst ha; norm_num),
   scoreScale_bounds.2.2.2 [("reading", 80), ("listening", 60)]
      (by intro p hp
          rcases List.mem_cons.mp hp with h | h
          · subst h; norm_num
          · simp only [List.mem_singleton] at h; subst h; norm_num)⟩

/-- The IELTS band table only produces integer bands. -/
theorem ieltsBandTable_intValued (p : ℚ) : ∃ k : ℤ, ieltsBandTable p = (k : ℚ) := by
  unfold ieltsBandTable
  exact ite_intValued ⟨9, by norm_num⟩ (ite_intValued ⟨8, by norm_num⟩
    (ite_intValued ⟨7, by norm_num⟩ (ite_intValued ⟨6, by norm_num⟩
    (ite_intValued ⟨5, by norm_num⟩ (ite_intValued ⟨4, by norm_num⟩ ⟨3, by norm_num⟩)))))

/-- The TOEFL step table only produces integer scores. -/
theorem toeflScoreTable_intValued (p : ℚ) : ∃ k : ℤ, toeflScoreTable p = (k : ℚ) := by
  unfold toeflScoreTable
  exact ite_intValued ⟨30, by norm_num⟩ (ite_intValued ⟨28, by norm_num⟩
    (ite_intValued ⟨26, by norm_num⟩ (ite_intValued ⟨24, by norm_num⟩
    (ite_intValued ⟨22, by norm_num⟩ (ite_intValued ⟨20, by norm_num⟩
    (ite_intValued ⟨18, by norm_num⟩ (ite_intValued ⟨16, by norm_num⟩
    (ite_intValued ⟨14, by norm_num⟩ (ite_intValued ⟨12, by norm_num⟩
    (ite_intValued ⟨10, by norm_num⟩ (ite_intValued ⟨8, by norm_num⟩
    (ite_intValued ⟨6, by norm_num⟩ (ite_intValued ⟨4, by norm_num⟩
    (ite_intValued ⟨2, by norm_num⟩ ⟨0, by norm_num⟩))))))))))))))

/-- The TOEFL per-skill score is integer-valued. -/
theorem toeflSkillScore_intValued (l : List QuestionAttempt) :
    ∃ k : ℤ, toeflSkillScore l = (k : ℚ) := by
  refine ⟨min 30 (jsRound ((l.foldl (fun sum a => sum + a.score) 0) /
    (l.length : ℚ) * 30)), ?_⟩
  unfold toeflSkillScore
  push_cast
  rfl

/-- C7: IELTS scores (the reading/listening band table, the writing and
speaking final band, and the aggregate band) are exact multiples of 0.5;
TOEFL scores (step table, writing/speaking final score, aggregate) and YDS
scores (objective evaluation, aggregate, weighted composite) are integers. -/
theorem rounding_law :
    (∀ attempts : List QuestionAttempt,
      ∃ k : ℤ, calculateIELTSBandScore attempts = (k : ℚ) / 2) ∧
    (∀ ta cc lr gr : ℚ, ∃ k : ℤ, ieltsWritingFinalBand ta cc lr gr = (k : ℚ) / 2) ∧
    (∀ raw total : ℕ, ∃ k : ℤ, convertReadingScoreToBand raw total = (k : ℚ) / 2) ∧
    (∀ dev org lang : ℚ, ∃ k : ℤ, toeflWritingFinalScore dev org lang = (k : ℚ)) ∧
    (∀ raw total : ℕ, ∃ k : ℤ, convertReadingScoreToTOEFL raw total = (k : ℚ)) ∧
    (∀ attempts : List QuestionAttempt,
      ∃ k : ℤ, calculateTOEFLScore attempts = (k : ℚ)) ∧
    (∀ q : YDSQuestion, ∀ ans : String,
      ∃ k : ℤ, (evaluateObjectiveAnswer q ans).score = (k : ℚ)) ∧
    (∀ attempts : List QuestionAttempt,
      ∃ k : ℤ, calculateYDSScore attempts = (k : ℚ)) ∧
    (∀ skillScores : List (String × ℚ),
      ∃ k : ℤ, calculateWeightedScore skillScores = (k : ℚ)) := by
  refine ⟨?_, ?_, ?_, ?_, ?_, ?_, ?_, ?_, ?_⟩
  · intro attempts
    unfold calculateIELTSBandScore
    split_ifs
    · exact ⟨0, by norm_num⟩
    · exact ⟨_, rfl⟩
  · intro ta cc lr gr
    exact ⟨_, rfl⟩
  · intro raw total
    obtain ⟨k, hk⟩ := ieltsBandTable_intValued (((raw : ℚ) / (total : ℚ)) * 100)
    refine ⟨2 * k, ?_⟩
    unfold convertReadingScoreToBand
    rw [hk]
    push_cast
    ring
  · intro dev org lang
    exact ⟨_, rfl⟩
  · intro raw total
    exact toeflScoreTable_intValued _
  · intro attempts
    unfold calculateTOEFLScore
    split_ifs
    · exact ⟨0, by norm_num⟩
    · obtain ⟨K, hK⟩ := list_sum_intValued
        ((toeflSkillIds attempts).map (fun s =>
          toeflSkillScore (attempts.filter (fun a => a.skillId == s))))
        (by intro x hx
            obtain ⟨s, _, rfl⟩ := List.mem_map.mp hx
            exact toeflSkillScore_intValued _)
      refine ⟨min 120 K, ?_⟩
      rw [hK]
      push_cast
      rfl
  · intro q ans
    unfold evaluateObjectiveAnswer
    dsimp only
    split_ifs
    · exact ⟨_, rfl⟩
    · exact ⟨0, by norm_num⟩
  · intro attempts
    unfold calculateYDSScore
    split_ifs
    · exact ⟨0, by norm_num⟩
    · exact ⟨_, rfl⟩
  · intro skillScores
    unfold calculateWeightedScore
    rw [foldl_pair_add_map]
    simp only [zero_add]
    split_ifs
    · exact ⟨_, rfl⟩
    · exact ⟨0, by norm_num⟩

/-- Spec-side weight table, from the claim's words: reading 0.40,
listening 0.20, grammar 0.25, vocabulary 0.15, other skills carrying no
weight. -/
def ydsSpecWeight (skill : String) : ℚ :=
  if skill = "reading" then 40/100
  else if skill = "listening" then 20/100
  else if skill = "grammar" then 25/100
  else if skill = "vocabulary" then 15/100
  else 0

/-- C8: the YDS weighted composite equals
round(Σ(skill average × weight) / Σ(weight of skills present)) under the
fixed spec weights, returns 0 when no skill has data, and maps the example
{reading 80, listening 60, grammar 70, vocabulary 50} to 69. -/
theorem calculateWeightedScore_spec :
    (∀ skillScores : List (String × ℚ),
      calculateWeightedScore skillScores =
        if (skillScores.map (fun p => ydsSpecWeight p.1)).sum > 0 then
          ((jsRound ((skillScores.map (fun p => p.2 * ydsSpecWeight p.1)).sum /
            (skillScores.map (fun p => ydsSpecWeight p.1)).sum)) : ℚ)
        else 0) ∧
    calculateWeightedScore [] = 0 ∧
    calculateWeightedScore
      [("reading", 80), ("listening", 60), ("grammar", 70), ("vocabulary", 50)] = 69 := by
  have hw : ∀ s, getSkillWeights s = ydsSpecWeight s := fun s => rfl
  have hgen : ∀ skillScores : List (String × ℚ),
      calculateWeightedScore skillScores =
        if (skillScores.map (fun p => ydsSpecWeight p.1)).sum > 0 then
          ((jsRound ((skillScores.map (fun p => p.2 * ydsSpecWeight p.1)).sum /
            (skillScores.map (fun p => ydsSpecWeight p.1)).sum)) : ℚ)
        else 0 := by
    intro skillScores
    unfold calculateWeightedScore
    rw [foldl_pair_add_map]
    simp only [zero_add, hw]
  refine ⟨hgen, by rw [hgen]; norm_num, ?_⟩
  rw [hgen]
  have hwsum : (([("reading", (80:ℚ)), ("listening", 60), ("grammar", 70),
      ("vocabulary", 50)].map (fun p => ydsSpecWeight p.1)).sum) = 1 := by
    simp [ydsSpecWeight]
    norm_num
  have hssum : (([("reading", (80:ℚ)), ("listening", 60), ("grammar", 70),
      ("vocabulary", 50)].map (fun p => p.2 * ydsSpecWeight p.1)).sum) = 69 := by
    simp [ydsSpecWeight]
    norm_num
  rw [hwsum, hssum]
  norm_num [jsRound]

/-- C9: for a non-empty attempt set with nonnegative scores, the TOEFL
overall score is exactly the sum of the per-skill scores capped at 120, and
each per-skill score already lies on the 0-30 scale. -/
theorem calculateTOEFLScore_sum_capped (attempts : List QuestionAttempt)
    (h : attempts ≠ []) (hs : ∀ a ∈ attempts, 0 ≤ a.score) :
    calculateTOEFLScore attempts =
      min 120 (((toeflSkillIds attempts).map (fun s =>
        toeflSkillScore (attempts.filter (fun a => a.skillId == s)))).sum) ∧
    ∀ s ∈ toeflSkillIds attempts,
      0 ≤ toeflSkillScore (attempts.filter (fun a => a.skillId == s)) ∧
      toeflSkillScore (attempts.filter (fun a => a.skillId == s)) ≤ 30 := by
  constructor
  · unfold calculateTOEFLScore
    have hne : ¬ (attempts.length = 0) := by
      simpa [List.length_eq_zero] using h
    simp [hne]
  · intro s _
    exact toeflSkillScore_bounds _ (fun a ha => hs a (List.mem_of_mem_filter ha))

/-- C9 witness: two attempts in two skills give the capped per-skill sum. -/
theorem calculateTOEFLScore_sum_capped_witness :
    calculateTOEFLScore
      [⟨"reading", some true, 1, some 1⟩, ⟨"listening", some false, 0, some 1⟩] =
      min 120 (((toeflSkillIds
        [⟨"reading", some true, 1, some 1⟩, ⟨"listening", some false, 0, some 1⟩]).map (fun s =>
          toeflSkillScore
            ([⟨"reading", some true, 1, some 1⟩,
              ⟨"listening", some false, 0, some 1⟩].filter (fun a => a.skillId == s)))).sum) :=
  (calculateTOEFLScore_sum_capped
    [⟨"reading", some true, 1, some 1⟩, ⟨"listening", some false, 0, some 1⟩]
    (by decide)
    (by intro a ha
        rcases List.mem_cons.mp ha with h1 | h1
        · subst h1; norm_num
        · simp only [List.mem_singleton] at h1; subst h1; norm_num)).1

/-- A generated sub-question held in the reading/listening question
metadata (`metadata.questions`). -/
structure SubQuestion where
  id : String
  correctAnswer : String
deriving DecidableEq, Repr

/-- One sub-answer comparison of `evaluateReadingAnswer`:
`userAnswers[index]?.toLowerCase().trim() === q.correctAnswer.toLowerCase().trim()`;
an absent user answer is `undefined` and never matches. -/
def subAnswerMatches (userAnswers : List String) (i : ℕ) (q : SubQuestion) : Bool :=
  match userAnswers.get? i with
  | some ua => jsTrim (jsToLower ua) == jsTrim (jsToLower q.correctAnswer)
  | none => false

/-- The `correctCount` accumulator of `evaluateReadingAnswer`, iterating the
sub-questions with their indices. -/
def readingCorrectCount (questions : List SubQuestion) (userAnswers : List String) : ℕ :=
  (questions.enum.filter (fun p => subAnswerMatches userAnswers p.1 p.2)).length

/-- The fields of the evaluation object returned by the reading/listening
evaluators that the claims are about (the feedback and suggestion strings
are not modelled). -/
structure ReadingEvaluation where
  isCorrect : Bool
  score : ℚ
  rawScore : ℚ
  criteriaAccuracy : JsNumber
  criteriaComprehension : ℚ
deriving DecidableEq, Repr

/-- `IELTSService.evaluateReadingAnswer` on the parsed user-answer array:
count matching sub-answers, convert to a band, mark correct when the count
equals the number of sub-questions; `criteriaScores.accuracy` is the
unguarded `(correctCount / questions.length) * 9`. -/
def ieltsEvaluateReadingAnswer (questions : List SubQuestion)
    (userAnswers : List String) : ReadingEvaluation :=
  let correctCount := readingCorrectCount questions userAnswers
  let bandScore := convertReadingScoreToBand correctCount questions.length
  { isCorrect := correctCount == questions.length
    score := bandScore
    rawScore := (correctCount : ℚ)
    criteriaAccuracy := jsMul (jsDiv (correctCount : ℚ) (questions.length : ℚ)) 9
    criteriaComprehension := bandScore }

/-- `TOEFLService.evaluateReadingAnswer`: identical shape, with the TOEFL
step table and the accuracy factor 30. -/
def toeflEvaluateReadingAnswer (questions : List SubQuestion)
    (userAnswers : List String) : ReadingEvaluation :=
  let correctCount := readingCorrectCount questions userAnswers
  let scaledScore := convertReadingScoreToTOEFL correctCount questions.length
  { isCorrect := correctCount == questions.length
    score := scaledScore
    rawScore := (correctCount : ℚ)
    criteriaAccuracy := jsMul (jsDiv (correctCount : ℚ) (questions.length : ℚ)) 30
    criteriaComprehension := scaledScore }

/-- C10: the multi-part reading evaluation is marked correct exactly when
every sub-question's answer matches after lowercasing and trimming; with an
empty sub-question list it returns isCorrect true, and its accuracy
criterion is the non-finite result of the unguarded 0 / 0 (no error is
signalled), in both the IELTS and TOEFL evaluators. -/
theorem evaluateReadingAnswer_allMatch_empty_nan
    (questions : List SubQuestion) (userAnswers : List String) :
    ((ieltsEvaluateReadingAnswer questions userAnswers).isCorrect = true ↔
      ∀ p ∈ questions.enum, subAnswerMatches userAnswers p.1 p.2 = true) ∧
    ((toeflEvaluateReadingAnswer questions userAnswers).isCorrect = true ↔
      ∀ p ∈ questions.enum, subAnswerMatches userAnswers p.1 p.2 = true) ∧
    ((ieltsEvaluateReadingAnswer [] userAnswers).isCorrect = true ∧
      (ieltsEvaluateReadingAnswer [] userAnswers).criteriaAccuracy = JsNumber.nan) ∧
    ((toeflEvaluateReadingAnswer [] userAnswers).isCorrect = true ∧
      (toeflEvaluateReadingAnswer [] userAnswers).criteriaAccuracy = JsNumber.nan) := by
  have hiff : readingCorrectCount questions userAnswers = questions.length ↔
      ∀ p ∈ questions.enum, subAnswerMatches userAnswers p.1 p.2 = true := by
    unfold readingCorrectCount
    rw [show questions.length = questions.enum.length from (List.enum_length).symm]
    exact List.filter_length_eq_length
  refine ⟨?_, ?_, ?_, ?_⟩
  · simpa [ieltsEvaluateReadingAnswer] using hiff
  · simpa [toeflEvaluateReadingAnswer] using hiff
  · constructor
    · simp [ieltsEvaluateReadingAnswer, readingCorrectCount]
    · simp [ieltsEvaluateReadingAnswer, readingCorrectCount, jsDiv, jsMul]
  · constructor
    · simp [toeflEvaluateReadingAnswer, readingCorrectCount]
    · simp [toeflEvaluateReadingAnswer, readingCorrectCount, jsDiv, jsMul]

/-- The question-row fields used by the selectors. -/
structure StoredQuestion where
  id : String
  examTypeId : String
  skillId : String
  difficultyLevel : String
deriving DecidableEq, Repr

/-- prisma `findFirst`: the first row (in the query's result order, here the
order of the store list) satisfying the filter, or `null`. -/
def findFirstQuestion (p : StoredQuestion → Bool) (store : List StoredQuestion) :
    Option StoredQuestion :=
  (store.filter p).head?

/-- The primary `where` clause of the selectors: exam type, skill,
`difficultyLevel: targetDifficulty.toUpperCase()`, and `id: { notIn:
excludeIds }`. -/
def questionFilter (examTypeId skillId difficultyLevel : String)
    (excludeIds : List String) (q : StoredQuestion) : Bool :=
  q.examTypeId == examTypeId && q.skillId == skillId &&
    q.difficultyLevel == difficultyLevel && !(excludeIds.contains q.id)

/-- The `where` clause of the YDS fallback query: any difficulty, still
excluding the recent IDs. -/
def questionFilterAnyDifficulty (examTypeId skillId : String)
    (excludeIds : List String) (q : StoredQuestion) : Bool :=
  q.examTypeId == examTypeId && q.skillId == skillId && !(excludeIds.contains q.id)

/-- `YDSService.getNextQuestion` after the exam-type/skill lookup, with
`excludeIds` the user's 10 most recent attempted question IDs for this
(exam, skill) and `targetDifficulty` the supplied or adaptive difficulty:
query with the target difficulty, fall back to any difficulty, and return
`null` (`none`) when nothing is left. -/
def ydsGetNextQuestion (store : List StoredQuestion) (examTypeId skillId : String)
    (excludeIds : List String) (targetDifficulty : String) : Option StoredQuestion :=
  match findFirstQuestion
      (questionFilter examTypeId skillId (jsToUpper targetDifficulty) excludeIds) store with
  | some question => some question
  | none => findFirstQuestion
      (questionFilterAnyDifficulty examTypeId skillId excludeIds) store

/-- `IELTSService.generateReadingQuestion`, projected to the stored-question
fields: return the first stored match for the target difficulty, otherwise
synthesize a question whose id is `ielts_reading_${Date.now()}` (`now` is
the millisecond clock reading at synthesis time). -/
def ieltsGenerateReadingQuestion (store : List StoredQuestion)
    (examTypeId skillId : String) (excludeIds : List String)
    (difficulty : String) (now : ℕ) : StoredQuestion :=
  match findFirstQuestion
      (questionFilter examTypeId skillId (jsToUpper difficulty) excludeIds) store with
  | some existingQuestion => existingQuestion
  | none =>
    { id := "ielts_reading_" ++ toString now
      examTypeId := examTypeId
      skillId := skillId
      difficultyLevel := jsToUpper difficulty }

/-- A row returned by `findFirst` belongs to the store and satisfies the
filter. -/
theorem findFirstQuestion_spec {p : StoredQuestion → Bool}
    {store : List StoredQuestion} {q : StoredQuestion}
    (h : findFirstQuestion p store = some q) : q ∈ store ∧ p q = true := by
  unfold findFirstQuestion at h
  have hmem : q ∈ store.filter p := by
    cases hl : store.filter p with
    | nil => rw [hl] at h; exact absurd h (by simp)
    | cons a t =>
      rw [hl] at h
      simp only [List.head?_cons, Option.some.injEq] at h
      subst h
      exact List.mem_cons_self a t
  exact ⟨(List.mem_filter.mp hmem).1, (List.mem_filter.mp hmem).2⟩

/-- C5: whatever the YDS selector returns is never among the excluded
recent IDs; when at least 11 distinct stored questions exist for the
(exam, skill) pair and at most 10 IDs are excluded, it returns some
question outside the excluded set; and the IELTS reading generator never
returns an excluded ID provided the freshly generated identifier is not
among them. -/
theorem getNextQuestion_exclusion (store : List StoredQuestion)
    (examTypeId skillId targetDifficulty : String) (excludeIds : List String)
    (now : ℕ) :
    (∀ q, ydsGetNextQuestion store examTypeId skillId excludeIds targetDifficulty
        = some q → q.id ∉ excludeIds) ∧
    (excludeIds.length ≤ 10 →
      11 ≤ ((store.filter (fun q => q.examTypeId == examTypeId &&
          q.skillId == skillId)).map (fun q => q.id)).toFinset.card →
      ∃ q, ydsGetNextQuestion store examTypeId skillId excludeIds targetDifficulty
          = some q ∧ q.id ∉ excludeIds) ∧
    (("ielts_reading_" ++ toString now) ∉ excludeIds →
      (ieltsGenerateReadingQuestion store examTypeId skillId excludeIds
        targetDifficulty now).id ∉ excludeIds) := by
  have hprim : ∀ q, findFirstQuestion (questionFilter examTypeId skillId
      (jsToUpper targetDifficulty) excludeIds) store = some q → q.id ∉ excludeIds := by
    intro q hq
    have := (findFirstQuestion_spec hq).2
    simp [questionFilter] at this
    exact this.2
  have hfall : ∀ q, findFirstQuestion (questionFilterAnyDifficulty examTypeId skillId
      excludeIds) store = some q → q.id ∉ excludeIds := by
    intro q hq
    have := (findFirstQuestion_spec hq).2
    simp [questionFilterAnyDifficulty] at this
    exact this.2
  refine ⟨?_, ?_, ?_⟩
  · intro q hq
    unfold ydsGetNextQuestion at hq
    cases hp : findFirstQuestion (questionFilter examTypeId skillId
        (jsToUpper targetDifficulty) excludeIds) store with
    | some q1 =>
      rw [hp] at hq
      simp only [Option.some.injEq] at hq
      exact hq ▸ hprim q1 hp
    | none =>
      rw [hp] at hq
      exact hfall q hq
  · intro hlen hcard
    -- at least one stored (exam, skill) question has an unexcluded id
    have hnotsub : ¬ (((store.filter (fun q => q.examTypeId == examTypeId &&
        q.skillId == skillId)).map (fun q => q.id)).toFinset ⊆ excludeIds.toFinset) := by
      intro hsub
      have h1 := Finset.card_le_card hsub
      have h2 := List.toFinset_card_le excludeIds
      omega
    obtain ⟨x, hxS, hxT⟩ := Finset.not_subset.mp hnotsub
    rw [List.mem_toFinset] at hxS
    obtain ⟨q0, hq0f, hq0id⟩ := List.mem_map.mp hxS
    have hq0mem := (List.mem_filter.mp hq0f).1
    have hq0es := (List.mem_filter.mp hq0f).2
    have hq0not : q0.id ∉ excludeIds := by
      rw [hq0id]
      intro hmem
      exact hxT (List.mem_toFinset.mpr hmem)
    have hq0fall : questionFilterAnyDifficulty examTypeId skillId excludeIds q0 = true := by
      simp only [Bool.and_eq_true, beq_iff_eq] at hq0es
      simp [questionFilterAnyDifficulty, hq0es.1, hq0es.2, hq0not]
    have hfallne : store.filter (questionFilterAnyDifficulty examTypeId skillId
        excludeIds) ≠ [] := by
      intro hnil
      have : q0 ∈ store.filter (questionFilterAnyDifficulty examTypeId skillId
          excludeIds) := List.mem_filter.mpr ⟨hq0mem, hq0fall⟩
      rw [hnil] at this
      exact absurd this (List.not_mem_nil q0)
    unfold ydsGetNextQuestion
    cases hp : findFirstQuestion (questionFilter examTypeId skillId
        (jsToUpper targetDifficulty) excludeIds) store with
    | some q1 => exact ⟨q1, rfl, hprim q1 hp⟩
    | none =>
      obtain ⟨qf, hqf⟩ : ∃ qf, findFirstQuestion (questionFilterAnyDifficulty
          examTypeId skillId excludeIds) store = some qf := by
        unfold findFirstQuestion
        cases hl : store.filter (questionFilterAnyDifficulty examTypeId skillId
            excludeIds) with
        | nil => exact absurd hl hfallne
        | cons a t => exact ⟨a, rfl⟩
      exact ⟨qf, hqf, hfall qf hqf⟩
  · intro hfresh
    unfold ieltsGenerateReadingQuestion
    cases hp : findFirstQuestion (questionFilter examTypeId skillId
        (jsToUpper targetDifficulty) excludeIds) store with
    | some q1 => exact hprim q1 hp
    | none => exact hfresh

/-- C5 witness: with 11 distinct stored grammar questions and no recent
attempts, the selector returns a question outside the (empty) excluded set,
and a synthesized reading id distinct from the one excluded id is not
excluded. -/
theorem getNextQuestion_exclusion_witness :
    (∃ q, ydsGetNextQuestion
        [⟨"q01", "yds", "grammar", "EASY"⟩, ⟨"q02", "yds", "grammar", "EASY"⟩,
         ⟨"q03", "yds", "grammar", "EASY"⟩, ⟨"q04", "yds", "grammar", "EASY"⟩,
         ⟨"q05", "yds", "grammar", "EASY"⟩, ⟨"q06", "yds", "grammar", "EASY"⟩,
         ⟨"q07", "yds", "grammar", "EASY"⟩, ⟨"q08", "yds", "grammar", "EASY"⟩,
         ⟨"q09", "yds", "grammar", "EASY"⟩, ⟨"q10", "yds", "grammar", "EASY"⟩,
         ⟨"q11", "yds", "grammar", "MEDIUM"⟩] "yds" "grammar" [] "easy"
        = some q ∧ q.id ∉ ([] : List String)) ∧
    (ieltsGenerateReadingQuestion [] "ielts" "reading" ["q01"] "easy" 5).id
      ∉ (["q01"] : List String) := by
  constructor
  · exact (getNextQuestion_exclusion
      [⟨"q01", "yds", "grammar", "EASY"⟩, ⟨"q02", "yds", "grammar", "EASY"⟩,
       ⟨"q03", "yds", "grammar", "EASY"⟩, ⟨"q04", "yds", "grammar", "EASY"⟩,
       ⟨"q05", "yds", "grammar", "EASY"⟩, ⟨"q06", "yds", "grammar", "EASY"⟩,
       ⟨"q07", "yds", "grammar", "EASY"⟩, ⟨"q08", "yds", "grammar", "EASY"⟩,
       ⟨"q09", "yds", "grammar", "EASY"⟩, ⟨"q10", "yds", "grammar", "EASY"⟩,
       ⟨"q11", "yds", "grammar", "MEDIUM"⟩] "yds" "grammar" "easy" [] 0).2.1
      (by decide) (by decide)
  · exact (getNextQuestion_exclusion [] "ielts" "reading" "easy" ["q01"] 5).2.2
      (by decide)
